import Mathlib

/-!
Verification of the BYBIT-BOT Scan-Detect-Execute engine.

Shallow embedding of the repository: the dashboard code (`frontend/src/app/page.tsx`),
the `/ha-status` endpoint code of `backend/app/api/routes.py` (present verbatim in the
deployment document), and — for backend modules whose sources are not in the repository
snapshot (`strategy.py`, `live_trader.py`, `scanner.py`, `main.py`, `indicators.py`) —
models built from the specification, each marked `Modelled from the spec:`.
Prices and other JSON numbers are embedded as rationals.
-/

namespace BybitBot

/-- Trend direction of a (smoothed) candle. -/
inductive Trend where
  | bullish
  | bearish
deriving DecidableEq, Repr

/-- Position side. -/
inductive Side where
  | long
  | short
deriving DecidableEq, Repr

/-- The string value a trend is serialized to by the backend API. -/
def Trend.str : Trend → String
  | .bullish => "bullish"
  | .bearish => "bearish"

/-- Modelled from the spec: `get_ha_trend` in `indicators.py` (module missing from the
snapshot). Trend of a smoothed candle: bullish if close is strictly above open, else
bearish (equality resolves to bearish). -/
def get_ha_trend (op cl : ℚ) : Trend :=
  if cl > op then .bullish else .bearish

/-- The CSS class chosen for a trend cell by `fetchHAStatus` in `dashboard/index.html`:
`trendClass = current_trend === "bullish" ? "long" : "short"`. -/
def trendClass (t : String) : String :=
  if t = "bullish" then "long" else "short"

/-- The bullishness test used by the chart renderer in `frontend/src/app/page.tsx`:
`isBullish = candle.trend === "bullish"`. -/
def isBullishDisplay (t : String) : Bool :=
  t = "bullish"

/-- Smoothed (Heikin-Ashi style) candle. Modelled from the spec data model:
open_time, OHLC, and the derived trend. -/
structure SmoothedCandle where
  open_time : Nat
  op : ℚ
  hi : ℚ
  lo : ℚ
  cl : ℚ
  trend : Trend
deriving DecidableEq, Repr

/-- Flip signal, per the spec data model. -/
structure FlipSignal where
  symbol : String
  timestamp : Nat
  direction : Trend
deriving DecidableEq, Repr

/-- Modelled from the spec: the Flip Detector of `strategy.py` (module missing from the
snapshot). Pure function over the last two completed smoothed candles A (older) and
B (newer): emits one signal with direction = B.trend iff the trends differ. -/
def flip_signal (symbol : String) (A B : SmoothedCandle) : Option FlipSignal :=
  if A.trend ≠ B.trend then some { symbol := symbol, timestamp := B.open_time, direction := B.trend }
  else none

/-- A candle is completed at `now` when its close time (open_time plus the timeframe
duration) has fully elapsed. -/
def completedCandles (now tfdur : Nat) (cs : List SmoothedCandle) : List SmoothedCandle :=
  cs.filter fun c => c.open_time + tfdur ≤ now

/-- The last two elements of a candle list, older first. -/
def lastTwo (cs : List SmoothedCandle) : Option (SmoothedCandle × SmoothedCandle) :=
  match cs.reverse with
  | b :: a :: _ => some (a, b)
  | _ => none

/-- Modelled from the spec: full flip detection for one symbol — restrict the history to
completed candles, take the last two, and apply the flip rule. Never consults a
still-forming candle. -/
def detect_flip (symbol : String) (now tfdur : Nat) (cs : List SmoothedCandle) :
    Option FlipSignal :=
  match lastTwo (completedCandles now tfdur cs) with
  | some (a, b) => flip_signal symbol a b
  | none => none

/-- One row of the `/ha-status` response, from the endpoint code in
`backend/app/api/routes.py` (reproduced in the deployment document). -/
structure HAStatusEntry where
  symbol : String
  current_trend : String
  recorded_state : String
  last_update : String
  is_flip_ready : Bool
deriving DecidableEq, Repr

/-- The recorded trend string for a symbol, defaulting to `"unknown"` when the symbol has
no recorded state: `trader.ha_states.get(symbol, dict()).get("state", "unknown")`. -/
def recorded_state_of (ha_states : List (String × String)) (symbol : String) : String :=
  (ha_states.lookup symbol).getD "unknown"

/-- One `ha_status.append(...)` record of the endpoint:
`is_flip_ready = current_trend != recorded_state if recorded_state != "unknown" else False`. -/
def get_ha_status_entry (symbol current_trend recorded_state last_update : String) :
    HAStatusEntry :=
  { symbol := symbol
    current_trend := current_trend
    recorded_state := recorded_state
    last_update := last_update
    is_flip_ready := if recorded_state ≠ "unknown" then decide (current_trend ≠ recorded_state) else false }

/-- Outcome of handling one symbol inside the `/ha-status` loop: an exception anywhere in
the body (`except Exception: continue`), an empty candle frame (`if df.empty: continue`),
or the computed current trend and last candle time. -/
inductive SymbolFetch where
  | failure
  | empty
  | data (current_trend last_update : String)
deriving DecidableEq, Repr

/-- The `/ha-status` loop: for the first 20 symbols, a failing or empty symbol is skipped
and every other symbol contributes one row. -/
def get_ha_status (symbols : List String) (fetch : String → SymbolFetch)
    (ha_states : List (String × String)) : List HAStatusEntry :=
  (symbols.take 20).filterMap fun symbol =>
    match fetch symbol with
    | .failure => none
    | .empty => none
    | .data current_trend last_update =>
        some (get_ha_status_entry symbol current_trend (recorded_state_of ha_states symbol)
          last_update)

/-- The `/ha-status` response body: `{"ha_status": ha_status, "count": len(ha_status)}`. -/
structure HAStatusResponse where
  ha_status : List HAStatusEntry
  count : Nat
deriving DecidableEq, Repr

/-- The whole endpoint: always returns, with `count` the length of the row list. -/
def get_ha_status_response (symbols : List String) (fetch : String → SymbolFetch)
    (ha_states : List (String × String)) : HAStatusResponse :=
  { ha_status := get_ha_status symbols fetch ha_states
    count := (get_ha_status symbols fetch ha_states).length }

/-- A raw market candle as rendered in the Market tab of `frontend/src/app/page.tsx`. -/
structure MarketData where
  symbol : String
  op : ℚ
  hi : ℚ
  lo : ℚ
  cl : ℚ
  volume : ℚ
  timestamp : String
deriving DecidableEq, Repr

/-- A candle as delivered by `/api/candles/{symbol}`. -/
structure ApiCandle where
  op : ℚ
  hi : ℚ
  lo : ℚ
  cl : ℚ
  volume : ℚ
  timestamp : String
deriving DecidableEq, Repr

/-- One symbol of `fetchMarketData` in `frontend/src/app/page.tsx`: a non-ok response or a
thrown exception yields `null`; otherwise the latest candle (if any) becomes a row. -/
def marketRow (symbol : String) (res : Option (List ApiCandle)) : Option MarketData :=
  match res with
  | none => none
  | some candles =>
      match candles.getLast? with
      | none => none
      | some latest =>
          some { symbol := symbol, op := latest.op, hi := latest.hi, lo := latest.lo
                 cl := latest.cl, volume := latest.volume, timestamp := latest.timestamp }

/-- The market fetch `fetchMarketData`: the first 20 symbols are fetched, null results are
filtered out, and the surviving rows become the market table. -/
def fetchMarketData (symbols : List String) (fetch : String → Option (List ApiCandle)) :
    List MarketData :=
  (symbols.take 20).filterMap fun symbol => marketRow symbol (fetch symbol)

/-- Modelled from the spec: the per-cycle scan report of the Scheduler (`main.py` and
`scanner.py` are missing from the snapshot). -/
structure ScanReport where
  symbols_scanned : Nat
  errors : List String
deriving DecidableEq, Repr

/-- Modelled from the spec: one scan cycle body — per-symbol work is isolated, a failing
symbol adds its error to the report and the cycle continues with the next symbol. -/
def runCycle (work : String → Except String Unit) : List String → ScanReport
  | [] => { symbols_scanned := 0, errors := [] }
  | s :: rest =>
      let rep := runCycle work rest
      match work s with
      | .ok _ => { symbols_scanned := rep.symbols_scanned + 1, errors := rep.errors }
      | .error e => { symbols_scanned := rep.symbols_scanned, errors := e :: rep.errors }

/-- Whether one symbol of a cycle succeeds. -/
def workOk (work : String → Except String Unit) (s : String) : Bool :=
  match work s with
  | .ok _ => true
  | .error _ => false

/-- An open position as declared by the `Position` interface of
`frontend/src/app/page.tsx` (lines 33-55): six take-profit levels with six hit flags. -/
structure Position where
  symbol : String
  strategy_id : String
  side : String
  entry_price : ℚ
  current_sl : ℚ
  take_profit_1 : ℚ
  take_profit_2 : ℚ
  take_profit_3 : ℚ
  take_profit_4 : ℚ
  take_profit_5 : ℚ
  take_profit_6 : ℚ
  tp1_hit : Bool
  tp2_hit : Bool
  tp3_hit : Bool
  tp4_hit : Bool
  tp5_hit : Bool
  tp6_hit : Bool
  current_price : Option ℚ
  unrealized_pnl_pct : Option ℚ
  unrealized_pnl_usd : Option ℚ
  trade_size_usd : Option ℚ
deriving DecidableEq, Repr

/-- The complete list of take-profit level fields the `Position` interface declares. -/
def Position.takeProfits (p : Position) : List ℚ :=
  [p.take_profit_1, p.take_profit_2, p.take_profit_3,
   p.take_profit_4, p.take_profit_5, p.take_profit_6]

/-- The complete list of take-profit hit-flag fields the `Position` interface declares. -/
def Position.tpHits (p : Position) : List Bool :=
  [p.tp1_hit, p.tp2_hit, p.tp3_hit, p.tp4_hit, p.tp5_hit, p.tp6_hit]

/-- A concrete `Position` value of the dashboard interface. -/
def samplePosition : Position :=
  { symbol := "BTCUSDT", strategy_id := "BASE", side := "LONG"
    entry_price := 100, current_sl := 95
    take_profit_1 := 102, take_profit_2 := 104, take_profit_3 := 106
    take_profit_4 := 108, take_profit_5 := 110, take_profit_6 := 112
    tp1_hit := false, tp2_hit := false, tp3_hit := false
    tp4_hit := false, tp5_hit := false, tp6_hit := false
    current_price := some 101, unrealized_pnl_pct := some 1
    unrealized_pnl_usd := some 1, trade_size_usd := some 10 }

/-- A row of the strategy comparison table (`StrategyComparison` interface). -/
structure StrategyComparison where
  strategy_id : String
  cooldown : ℚ
  atr_tf : String
  total_trades : ℚ
  wins : ℚ
  losses : ℚ
  win_rate : ℚ
  total_pnl : ℚ
deriving DecidableEq, Repr

/-- A closed or open trade record (`Trade` interface of `frontend/src/app/page.tsx`). -/
structure Trade where
  id : String
  symbol : String
  strategy_id : String
  side : String
  entry_price : ℚ
  entry_time : String
  trade_size_usd : ℚ
  exit_price : Option ℚ
  exit_time : Option String
  pnl_pct : Option ℚ
  pnl_usd : Option ℚ
  status : String
deriving DecidableEq, Repr

/-- Account summary (`Account` interface of `frontend/src/app/page.tsx`). -/
structure Account where
  starting_capital : ℚ
  current_balance : ℚ
  total_pnl_usd : ℚ
  next_trade_size : ℚ
  max_trades : ℚ
  open_positions : ℚ
deriving DecidableEq, Repr

/-- One HTTP response as observed by `fetchData`: `ok` with a parsed payload, or not ok. -/
inductive ApiResult (α : Type) where
  | ok (payload : α)
  | notOk
deriving DecidableEq, Repr

/-- The dashboard React state touched by `fetchData`. -/
structure DashState where
  strategies : List StrategyComparison
  trades : List Trade
  positions : List Position
  account : Option Account
  symbols : List String
  error : Option String
  loading : Bool
deriving DecidableEq, Repr

/-- The dashboard refresh `fetchData` of `frontend/src/app/page.tsx`: five parallel
requests; a non-ok
comparison, trades or positions response throws, which lands in the catch block — the
previous state is kept and only the error message is set. Otherwise all five pieces of
state are written, with a non-ok account response degrading to `null` and a non-ok
symbols response degrading to the empty list, and the error is cleared. In both paths
`loading` is set to false by the finally block. -/
def fetchData (prev : DashState)
    (compRes : ApiResult (List StrategyComparison))
    (tradesRes : ApiResult (List Trade))
    (posRes : ApiResult (List Position))
    (accountRes : ApiResult Account)
    (symbolsRes : ApiResult (List String)) : DashState :=
  match compRes, tradesRes, posRes with
  | .ok comp, .ok trades, .ok pos =>
      { strategies := comp
        trades := trades
        positions := pos
        account := match accountRes with | .ok a => some a | .notOk => none
        symbols := match symbolsRes with | .ok s => s | .notOk => []
        error := none
        loading := false }
  | _, _, _ =>
      { prev with
        error := some "Failed to connect to backend. Make sure the server is running."
        loading := false }

/-- A raw stored candle, per the spec data model and `scanner.py` persistence. -/
structure Candle where
  open_time : Nat
  op : ℚ
  hi : ℚ
  lo : ℚ
  cl : ℚ
  volume : ℚ
deriving DecidableEq, Repr

/-- Modelled from the spec: the incremental merge of `scanner.py` (module missing from the
snapshot) for one fetched candle — an entry with the same open_time is overwritten by the
freshly fetched values (the most-recent fetch wins), a strictly new open_time is
appended. -/
def mergeOne (store : List Candle) (c : Candle) : List Candle :=
  if store.any fun d => d.open_time == c.open_time then
    store.map fun d => if d.open_time == c.open_time then c else d
  else
    store ++ [c]

/-- Modelled from the spec: merge a fetched batch into the store, candle by candle. -/
def merge (store : List Candle) (fetched : List Candle) : List Candle :=
  fetched.foldl mergeOne store

/-- Modelled from the spec: an open position of the Position Manager in `live_trader.py`
(module missing from the snapshot), with the ten-level take-profit ladder, hit flags,
trailing stop and stop loss of the spec data model. -/
structure OpenPosition where
  side : Side
  entry_price : ℚ
  stop_loss : ℚ
  take_profit : Fin 10 → ℚ
  tp_hit : Fin 10 → Bool
  trailing_stop_active : Bool
  trailing_stop_price : ℚ

/-- Profit-favorable order for a side: on a long, larger is better for a protective
level; on a short, smaller is. -/
def favLe (side : Side) (a b : ℚ) : Prop :=
  match side with
  | .long => a ≤ b
  | .short => b ≤ a

instance (side : Side) (a b : ℚ) : Decidable (favLe side a b) := by
  unfold favLe
  cases side <;> infer_instance

/-- Move a protective level only in the profit-favorable direction. -/
def favMax (side : Side) (a b : ℚ) : ℚ :=
  match side with
  | .long => max a b
  | .short => min a b

/-- Whether the market price has reached a take-profit level for the given side. -/
def tpReached (side : Side) (price level : ℚ) : Bool :=
  match side with
  | .long => level ≤ price
  | .short => price ≤ level

/-- Whether the market price has crossed a protective stop level for the given side. -/
def stopCrossed (side : Side) (price level : ℚ) : Bool :=
  match side with
  | .long => price ≤ level
  | .short => level ≤ price

/-- Stop-loss breach check: the fixed stop, or — while trailing is active — the trailing
stop, is crossed. -/
def breached (p : OpenPosition) (price : ℚ) : Bool :=
  stopCrossed p.side price p.stop_loss ||
    (p.trailing_stop_active && stopCrossed p.side price p.trailing_stop_price)

/-- Trailing-stop candidate at a price: a configured offset behind the current price. -/
def trailCandidate (side : Side) (price offset : ℚ) : ℚ :=
  match side with
  | .long => price - offset
  | .short => price + offset

/-- Take-profit flags after an update: every already hit level stays hit, every level the
price has reached becomes hit. -/
def updatedHits (p : OpenPosition) (price : ℚ) : Fin 10 → Bool :=
  fun i => p.tp_hit i || tpReached p.side price (p.take_profit i)

/-- Trailing-stop activation after the update: already active, or TP1 is now hit. -/
def updatedActive (p : OpenPosition) (price : ℚ) : Bool :=
  p.trailing_stop_active || updatedHits p price 0

/-- Trailing-stop price after the update: while active it moves only in the
profit-favorable direction; on activation it starts a configured offset behind the
current price; while inactive it is untouched. -/
def updatedTrail (offset : ℚ) (p : OpenPosition) (price : ℚ) : ℚ :=
  if p.trailing_stop_active then
    favMax p.side p.trailing_stop_price (trailCandidate p.side price offset)
  else if updatedActive p price then trailCandidate p.side price offset
  else p.trailing_stop_price

/-- Stop loss after the update: once trailing is active it is tightened toward the
trailing stop, only in the profit-favorable direction; otherwise it is untouched. -/
def updatedStop (offset : ℚ) (p : OpenPosition) (price : ℚ) : ℚ :=
  if updatedActive p price then favMax p.side p.stop_loss (updatedTrail offset p price)
  else p.stop_loss

/-- Modelled from the spec: the OPEN self-transition of the Position Manager on one price
update: (a) a stop-loss or trailing-stop breach force-closes; (b) every unhit reached
take-profit level is marked hit, hitting TP1 activates the trailing stop, and while
trailing is active the trailing stop and the stop loss are tightened only in the
profit-favorable direction; (c) TP10 closes the remainder. `none` means the position was
closed by this update. -/
def priceUpdate (offset : ℚ) (p : OpenPosition) (price : ℚ) : Option OpenPosition :=
  if breached p price then none
  else if updatedHits p price 9 then none
  else some
    { p with
      tp_hit := updatedHits p price
      trailing_stop_active := updatedActive p price
      trailing_stop_price := updatedTrail offset p price
      stop_loss := updatedStop offset p price }

/-- The trajectory of states an open position passes through under a sequence of price
updates, starting state included, stopping when the position closes. -/
def trajectory (offset : ℚ) (p : OpenPosition) : List ℚ → List OpenPosition
  | [] => [p]
  | price :: rest =>
      match priceUpdate offset p price with
      | none => [p]
      | some q => p :: trajectory offset q rest

/-- The take-profit ladder is at monotonically increasing distance from entry: levels with
larger index are profit-favorably at or beyond levels with smaller index. -/
def LadderAscending (p : OpenPosition) : Prop :=
  ∀ i j : Fin 10, j ≤ i → favLe p.side (p.take_profit j) (p.take_profit i)

/-- The spec invariant on an open position: hit flags are downward closed along the
ladder, and an active trailing stop implies TP1 was hit. -/
def PosInv (p : OpenPosition) : Prop :=
  (∀ i j : Fin 10, j ≤ i → p.tp_hit i = true → p.tp_hit j = true) ∧
    (p.trailing_stop_active = true → p.tp_hit 0 = true)

/-- One step of progress between two successive states of an open position: no hit flag
reverts, and once trailing is active it stays active while the trailing stop and the stop
loss move only in the profit-favorable direction. -/
def PosStep (p q : OpenPosition) : Prop :=
  (∀ i : Fin 10, p.tp_hit i = true → q.tp_hit i = true) ∧
    (p.trailing_stop_active = true →
      q.trailing_stop_active = true ∧
        favLe p.side p.trailing_stop_price q.trailing_stop_price ∧
        favLe p.side p.stop_loss q.stop_loss)

/-- Modelled from the spec: the Scheduler state of `main.py` (module missing from the
snapshot; the documentation records APScheduler with max_instances=1 and
misfire_grace_time): the completion time of the in-flight cycle (if any), the count of
missed ticks, and the (start, finish) intervals of the launched cycles. -/
structure SchedState where
  busyUntil : Option Nat
  missed : Nat
  launched : List (Nat × Nat)
deriving DecidableEq, Repr

/-- A scheduler tick: when it was scheduled and when it was actually delivered. -/
structure Tick where
  scheduled : Nat
  actual : Nat
deriving DecidableEq, Repr

/-- Whether a cycle is still running at time `t`. -/
def isBusyAt (s : SchedState) (t : Nat) : Bool :=
  match s.busyUntil with
  | some fin => t < fin
  | none => false

/-- Modelled from the spec: one tick of the Scheduler. A tick delivered beyond the grace
window of its scheduled time is a misfire and is counted missed; a tick arriving while
the previous cycle is still running is skipped (not queued) and counted missed;
otherwise a cycle of duration `dur` is launched at the delivery time. -/
def schedTick (grace dur : Nat) (s : SchedState) (tk : Tick) : SchedState :=
  if grace < tk.actual - tk.scheduled then
    { s with missed := s.missed + 1 }
  else if isBusyAt s tk.actual then
    { s with missed := s.missed + 1 }
  else
    { busyUntil := some (tk.actual + dur), missed := s.missed
      launched := s.launched ++ [(tk.actual, tk.actual + dur)] }

/-- Run the scheduler over a sequence of ticks from the idle initial state. -/
def runSched (grace dur : Nat) (ticks : List Tick) : SchedState :=
  ticks.foldl (schedTick grace dur) { busyUntil := none, missed := 0, launched := [] }

/-- Scheduler invariant: the launched cycles are chained end-to-start, and every
launched cycle ends no later than the completion time of the in-flight cycle (with no
cycle in flight only before the first launch). -/
def SchedInv (s : SchedState) : Prop :=
  List.Chain' (fun a b : Nat × Nat => a.2 ≤ b.1) s.launched ∧
    (s.busyUntil = none → s.launched = []) ∧
    ∀ fin, s.busyUntil = some fin → ∀ pr ∈ s.launched, pr.2 ≤ fin

/-- A concrete well-formed open LONG position for the C4 witness: entry 100, stop 95,
ladder 101, 102, ..., 110. -/
def witnessPosition : OpenPosition :=
  { side := .long
    entry_price := 100
    stop_loss := 95
    take_profit := ![101, 102, 103, 104, 105, 106, 107, 108, 109, 110]
    tp_hit := fun _ => false
    trailing_stop_active := false
    trailing_stop_price := 0 }


/-- A concrete dashboard state before a refresh. -/
def dash0 : DashState :=
  { strategies := [], trades := [], positions := [samplePosition]
    account := none, symbols := ["BTCUSDT"], error := none, loading := true }

/-- Witness candles for C2: an older completed bearish candle. -/
def candA : SmoothedCandle :=
  { open_time := 0, op := 10, hi := 11, lo := 9, cl := 9, trend := .bearish }

/-- Witness candles for C2: a newer completed bullish candle. -/
def candB : SmoothedCandle :=
  { open_time := 100, op := 9, hi := 12, lo := 9, cl := 12, trend := .bullish }

/-- Witness candles for C2: a still-forming candle that must be ignored. -/
def candC : SmoothedCandle :=
  { open_time := 200, op := 12, hi := 13, lo := 11, cl := 11, trend := .bearish }

/-- A concrete stored candle for the C7 witness. -/
def storedCandle : Candle :=
  { open_time := 1000, op := 10, hi := 12, lo := 9, cl := 11, volume := 50 }

/-- The revised fetch of the same candle (the bar was still forming before). -/
def revisedCandle : Candle :=
  { open_time := 1000, op := 10, hi := 13, lo := 9, cl := 12, volume := 80 }

instance (p : OpenPosition) : Decidable (LadderAscending p) := by
  unfold LadderAscending
  infer_instance

instance (p : OpenPosition) : Decidable (PosInv p) := by
  unfold PosInv
  infer_instance

/-- The ends of already launched cycles lie at or before a time the scheduler is not
busy at. -/
lemma SchedInv.ends_le (s : SchedState) (h : SchedInv s) (t : Nat)
    (hb : isBusyAt s t = false) : ∀ pr ∈ s.launched, pr.2 ≤ t := by
  intro pr hpr
  obtain ⟨_, hnone, hbound⟩ := h
  rcases hbusy : s.busyUntil with _ | fin
  · rw [hnone hbusy] at hpr
    simp at hpr
  · have hfin := hbound fin hbusy pr hpr
    have : ¬ t < fin := by
      intro hc
      rw [isBusyAt, hbusy] at hb
      simp [hc] at hb
    omega

/-- One scheduler tick preserves the invariant. -/
lemma schedTick_inv (grace dur : Nat) (s : SchedState) (tk : Tick) (h : SchedInv s) :
    SchedInv (schedTick grace dur s tk) := by
  obtain ⟨hchain, hnone, hbound⟩ := h
  unfold schedTick
  by_cases hg : grace < tk.actual - tk.scheduled
  · rw [if_pos hg]
    exact ⟨hchain, hnone, hbound⟩
  · rw [if_neg hg]
    by_cases hb : isBusyAt s tk.actual = true
    · rw [if_pos hb]
      exact ⟨hchain, hnone, hbound⟩
    · rw [if_neg hb]
      rw [Bool.not_eq_true] at hb
      have hends := SchedInv.ends_le s ⟨hchain, hnone, hbound⟩ tk.actual hb
      refine ⟨?_, ?_, ?_⟩
      · rw [List.chain'_append]
        refine ⟨hchain, List.chain'_singleton _, ?_⟩
        intro x hx y hy
        simp only [List.head?_cons, Option.mem_def, Option.some.injEq] at hy
        subst hy
        exact hends x (List.mem_of_getLast?_eq_some hx)
      · intro hcontra
        simp at hcontra
      · intro fin2 hf pr hpr
        simp only [Option.some.injEq] at hf
        subst hf
        rw [List.mem_append] at hpr
        rcases hpr with hpr | hpr
        · exact le_trans (hends pr hpr) (Nat.le_add_right _ _)
        · simp only [List.mem_singleton] at hpr
          subst hpr
          exact le_refl _

/-- One scheduler tick either launches exactly one cycle or records exactly one miss. -/
lemma schedTick_count (grace dur : Nat) (s : SchedState) (tk : Tick) :
    (schedTick grace dur s tk).launched.length + (schedTick grace dur s tk).missed =
      s.launched.length + s.missed + 1 := by
  unfold schedTick
  by_cases hg : grace < tk.actual - tk.scheduled
  · rw [if_pos hg]
    simp only []
    omega
  · rw [if_neg hg]
    by_cases hb : isBusyAt s tk.actual = true
    · rw [if_pos hb]
      simp only []
      omega
    · rw [if_neg hb]
      simp only [List.length_append, List.length_singleton]
      omega

/-- Folding ticks preserves the invariant. -/
lemma schedFold_inv (grace dur : Nat) (ticks : List Tick) (s : SchedState)
    (h : SchedInv s) : SchedInv (ticks.foldl (schedTick grace dur) s) := by
  induction ticks generalizing s with
  | nil => exact h
  | cons tk rest ih => exact ih _ (schedTick_inv grace dur s tk h)

/-- Folding ticks accounts every tick as either a launch or a miss. -/
lemma schedFold_count (grace dur : Nat) (ticks : List Tick) (s : SchedState) :
    (ticks.foldl (schedTick grace dur) s).launched.length +
        (ticks.foldl (schedTick grace dur) s).missed =
      s.launched.length + s.missed + ticks.length := by
  induction ticks generalizing s with
  | nil => simp
  | cons tk rest ih =>
      simp only [List.foldl_cons, List.length_cons]
      rw [ih (schedTick grace dur s tk), schedTick_count]
      omega

/-- C6: the scheduler never runs two cycles at once — over any tick sequence, the
launched cycle intervals are chained so each starts no earlier than the previous one
finishes, and every tick is accounted exactly once as a launch or a miss; a tick arriving
while a cycle is still in flight is skipped in place (only the miss counter changes, no
cycle is queued); and a tick delivered within the grace window to an idle scheduler
launches immediately and is not treated as a miss. -/
theorem C6_scheduler_never_overlaps (grace dur : Nat) (ticks : List Tick) :
    List.Chain' (fun a b : Nat × Nat => a.2 ≤ b.1) (runSched grace dur ticks).launched ∧
      (runSched grace dur ticks).launched.length + (runSched grace dur ticks).missed =
        ticks.length ∧
      (∀ (s : SchedState) (fin : Nat) (tk : Tick), s.busyUntil = some fin →
        tk.actual < fin →
        schedTick grace dur s tk = { s with missed := s.missed + 1 }) ∧
      (∀ (s : SchedState) (tk : Tick), s.busyUntil = none →
        tk.actual - tk.scheduled ≤ grace →
        schedTick grace dur s tk =
          { busyUntil := some (tk.actual + dur), missed := s.missed
            launched := s.launched ++ [(tk.actual, tk.actual + dur)] }) := by
  refine ⟨?_, ?_, ?_, ?_⟩
  · refine (schedFold_inv grace dur ticks _ ?_).1
    exact ⟨List.chain'_nil, fun _ => rfl, fun fin h => by simp at h⟩
  · have := schedFold_count grace dur ticks
      { busyUntil := none, missed := 0, launched := [] }
    simpa [runSched] using this
  · intro s fin tk hbusy hlt
    have hb : isBusyAt s tk.actual = true := by
      rw [isBusyAt, hbusy]
      simp [hlt]
    unfold schedTick
    by_cases hg : grace < tk.actual - tk.scheduled
    · rw [if_pos hg]
    · rw [if_neg hg, if_pos hb]
  · intro s tk hbusy hg
    have hb : ¬ isBusyAt s tk.actual = true := by
      rw [isBusyAt, hbusy]
      simp
    unfold schedTick
    rw [if_neg (by omega), if_neg hb]

/-- Witness for C6: a tick arriving during a running cycle is skipped and counted; a
timely tick to an idle scheduler launches. -/
theorem C6_scheduler_witness :
    schedTick 300 200 { busyUntil := some 400, missed := 0, launched := [(100, 400)] }
        { scheduled := 200, actual := 210 } =
      { busyUntil := some 400, missed := 1, launched := [(100, 400)] } ∧
      schedTick 300 200 { busyUntil := none, missed := 0, launched := [] }
        { scheduled := 100, actual := 150 } =
      { busyUntil := some 350, missed := 0, launched := [(150, 350)] } :=
  ⟨(C6_scheduler_never_overlaps 300 200 []).2.2.1
      { busyUntil := some 400, missed := 0, launched := [(100, 400)] } 400
      { scheduled := 200, actual := 210 } rfl (by decide),
    (C6_scheduler_never_overlaps 300 200 []).2.2.2
      { busyUntil := none, missed := 0, launched := [] }
      { scheduled := 100, actual := 150 } rfl (by decide)⟩

/-- Tightening toward a second level never moves a protective level unfavorably. -/
lemma favLe_favMax_left (side : Side) (a b : ℚ) : favLe side a (favMax side a b) := by
  cases side
  · exact le_max_left a b
  · exact min_le_left a b

/-- A price that reaches a farther take-profit level also reaches every nearer one. -/
lemma tpReached_mono (side : Side) (price a b : ℚ) (h : favLe side a b)
    (hr : tpReached side price b = true) : tpReached side price a = true := by
  cases side <;>
    simp only [tpReached, favLe, decide_eq_true_eq] at h hr ⊢ <;> linarith

/-- A surviving price update produces exactly the record with the updated fields. -/
lemma priceUpdate_some (offset : ℚ) (p q : OpenPosition) (price : ℚ)
    (h : priceUpdate offset p price = some q) :
    q = { p with
          tp_hit := updatedHits p price
          trailing_stop_active := updatedActive p price
          trailing_stop_price := updatedTrail offset p price
          stop_loss := updatedStop offset p price } := by
  unfold priceUpdate at h
  by_cases h1 : breached p price = true
  · rw [if_pos h1] at h
    exact absurd h (by simp)
  · rw [if_neg h1] at h
    by_cases h2 : updatedHits p price 9 = true
    · rw [if_pos h2] at h
      exact absurd h (by simp)
    · rw [if_neg h2] at h
      exact (Option.some.inj h).symm

/-- A surviving price update preserves the well-formedness and the invariant of an open
position and makes only monotone progress. -/
lemma priceUpdate_preserves (offset : ℚ) (p q : OpenPosition) (price : ℚ)
    (hasc : LadderAscending p) (hinv : PosInv p)
    (h : priceUpdate offset p price = some q) :
    q.side = p.side ∧ LadderAscending q ∧ PosInv q ∧ PosStep p q := by
  have hq := priceUpdate_some offset p q price h
  subst hq
  refine ⟨rfl, ?_, ⟨?_, ?_⟩, ?_, ?_⟩
  · intro i j hle
    exact hasc i j hle
  · intro i j hle hi
    have hi' : updatedHits p price i = true := hi
    show updatedHits p price j = true
    simp only [updatedHits, Bool.or_eq_true] at hi' ⊢
    rcases hi' with hc | hc
    · exact Or.inl (hinv.1 i j hle hc)
    · exact Or.inr (tpReached_mono p.side price _ _ (hasc i j hle) hc)
  · intro ha
    have ha' : updatedActive p price = true := ha
    show updatedHits p price 0 = true
    simp only [updatedActive, Bool.or_eq_true] at ha'
    rcases ha' with hc | hc
    · simp only [updatedHits, Bool.or_eq_true]
      exact Or.inl (hinv.2 hc)
    · exact hc
  · intro i hpi
    show updatedHits p price i = true
    simp only [updatedHits, Bool.or_eq_true]
    exact Or.inl hpi
  · intro hpa
    have ha : updatedActive p price = true := by
      simp [updatedActive, hpa]
    refine ⟨?_, ?_, ?_⟩
    · exact ha
    · show favLe p.side p.trailing_stop_price (updatedTrail offset p price)
      rw [updatedTrail, if_pos hpa]
      exact favLe_favMax_left p.side _ _
    · show favLe p.side p.stop_loss (updatedStop offset p price)
      rw [updatedStop, if_pos ha]
      exact favLe_favMax_left p.side _ _

/-- Every trajectory starts at the given state. -/
lemma trajectory_head (offset : ℚ) (p : OpenPosition) (prices : List ℚ) :
    (trajectory offset p prices).head? = some p := by
  cases prices with
  | nil => rfl
  | cons price rest =>
      rcases h : priceUpdate offset p price with _ | q <;> simp [trajectory, h]

/-- C4: on any open position whose take-profit ladder is at monotonically increasing
distance from entry and whose flags satisfy the ladder invariant, every state along any
sequence of price updates satisfies the invariant (tp_hit downward closed along the
ladder, trailing active only after TP1), and every transition is monotone: no hit flag
reverts, trailing stays active once active, and the trailing stop and the stop loss then
move only in the profit-favorable direction. -/
theorem C4_position_update_invariants (offset : ℚ) (p : OpenPosition) (prices : List ℚ)
    (hasc : LadderAscending p) (hinv : PosInv p) :
    (∀ q ∈ trajectory offset p prices, PosInv q) ∧
      List.Chain' PosStep (trajectory offset p prices) := by
  induction prices generalizing p with
  | nil =>
      constructor
      · intro q hq
        simp only [trajectory, List.mem_singleton] at hq
        subst hq
        exact hinv
      · exact List.chain'_singleton _
  | cons price rest ih =>
      rcases hstep : priceUpdate offset p price with _ | q
      · constructor
        · intro r hr
          simp only [trajectory, hstep, List.mem_singleton] at hr
          subst hr
          exact hinv
        · simp only [trajectory, hstep]
          exact List.chain'_singleton _
      · obtain ⟨hside, hasc', hinv', hstep'⟩ :=
          priceUpdate_preserves offset p q price hasc hinv hstep
        have hih := ih q hasc' hinv'
        constructor
        · intro r hr
          simp only [trajectory, hstep, List.mem_cons] at hr
          rcases hr with hr | hr
          · subst hr
            exact hinv
          · exact hih.1 r hr
        · simp only [trajectory, hstep]
          rw [List.chain'_cons']
          refine ⟨?_, hih.2⟩
          intro y hy
          rw [trajectory_head] at hy
          simp only [Option.mem_def, Option.some.injEq] at hy
          subst hy
          exact hstep'

/-- Witness for C4 on the price path 101, 103, 96. -/
theorem C4_position_update_witness :
    LadderAscending witnessPosition ∧ PosInv witnessPosition ∧
      ((∀ q ∈ trajectory 1 witnessPosition [101, 103, 96], PosInv q) ∧
        List.Chain' PosStep (trajectory 1 witnessPosition [101, 103, 96])) :=
  ⟨by decide, by decide,
    C4_position_update_invariants 1 witnessPosition [101, 103, 96] (by decide) (by decide)⟩


/-- C5: a smoothed candle's trend is bullish exactly when close is strictly above open,
a close equal to the open resolves to bearish, and the same tie-break governs the two
display sites: the dashboard trend cell class and the chart bullishness test. -/
theorem C5_trend_tie_break (op cl : ℚ) :
    (get_ha_trend op cl = Trend.bullish ↔ cl > op) ∧
      (cl = op → get_ha_trend op cl = Trend.bearish) ∧
      (trendClass (get_ha_trend op cl).str = "long" ↔ cl > op) ∧
      (isBullishDisplay (get_ha_trend op cl).str = true ↔ cl > op) := by
  by_cases h : cl > op
  · simp [get_ha_trend, trendClass, isBullishDisplay, Trend.str, h]
    intro heq
    simp [heq] at h
  · simp [get_ha_trend, trendClass, isBullishDisplay, Trend.str, h]

/-- Witness for C5 at concrete prices. -/
theorem C5_trend_tie_break_witness :
    get_ha_trend 5 5 = Trend.bearish ∧
      (trendClass (get_ha_trend 5 7).str = "long" ↔ (7 : ℚ) > 5) :=
  ⟨(C5_trend_tie_break 5 5).2.1 rfl, (C5_trend_tie_break 5 7).2.2.1⟩

/-- C1: the `Position` interface of the dashboard declares a six-level take-profit ladder
(take_profit_1..take_profit_6 with flags tp1_hit..tp6_hit), not the ten-level ladder the
documentation describes: every `Position` value carries exactly 6 take-profit fields and
6 hit flags, and in particular not 10. -/
theorem C1_tp_ladder_has_six_levels :
    (∀ p : Position, p.takeProfits.length = 6 ∧ p.tpHits.length = 6) ∧
      samplePosition.takeProfits.length ≠ 10 :=
  ⟨fun _ => ⟨rfl, rfl⟩, by decide⟩

/-- C3: for a symbol whose recorded HAState is present (a recorded trend), the
`/ha-status` row reports `is_flip_ready` true exactly when the freshly computed trend
differs from the recorded trend. -/
theorem C3_flip_ready_iff_trend_differs
    (ha_states : List (String × String)) (symbol current last_update : String) (t : Trend)
    (h : ha_states.lookup symbol = some t.str) :
    (get_ha_status_entry symbol current (recorded_state_of ha_states symbol)
        last_update).is_flip_ready = decide (current ≠ t.str) := by
  have hrec : recorded_state_of ha_states symbol = t.str := by
    simp [recorded_state_of, h]
  rw [hrec]
  cases t <;> simp [get_ha_status_entry, Trend.str]

/-- Witness for C3: a recorded bullish state with a freshly computed bearish trend is
reported flip-ready. -/
theorem C3_flip_ready_witness :
    ([("BTCUSDT", "bullish")] : List (String × String)).lookup "BTCUSDT"
        = some Trend.bullish.str ∧
      (get_ha_status_entry "BTCUSDT" "bearish"
          (recorded_state_of [("BTCUSDT", "bullish")] "BTCUSDT")
          "2026-01-01").is_flip_ready = decide ("bearish" ≠ Trend.bullish.str) :=
  ⟨by decide, C3_flip_ready_iff_trend_differs [("BTCUSDT", "bullish")] "BTCUSDT" "bearish"
    "2026-01-01" Trend.bullish (by decide)⟩

/-- C9: a symbol with no recorded HAState is reported with recorded_state "unknown" and
`is_flip_ready` false, whatever the computed current trend is. -/
theorem C9_unrecorded_never_flip_ready
    (ha_states : List (String × String)) (symbol current last_update : String)
    (h : ha_states.lookup symbol = none) :
    (get_ha_status_entry symbol current (recorded_state_of ha_states symbol)
        last_update).recorded_state = "unknown" ∧
      (get_ha_status_entry symbol current (recorded_state_of ha_states symbol)
        last_update).is_flip_ready = false := by
  have hrec : recorded_state_of ha_states symbol = "unknown" := by
    simp [recorded_state_of, h]
  exact ⟨by simp [get_ha_status_entry, hrec], by simp [get_ha_status_entry, hrec]⟩

/-- Witness for C9: an unrecorded symbol is never flip-ready, even with a computed
bullish trend. -/
theorem C9_unrecorded_witness :
    (get_ha_status_entry "BTCUSDT" "bullish"
        (recorded_state_of [("ETHUSDT", "bearish")] "BTCUSDT")
        "2026-01-01").recorded_state = "unknown" ∧
      (get_ha_status_entry "BTCUSDT" "bullish"
        (recorded_state_of [("ETHUSDT", "bearish")] "BTCUSDT")
        "2026-01-01").is_flip_ready = false :=
  C9_unrecorded_never_flip_ready [("ETHUSDT", "bearish")] "BTCUSDT" "bullish" "2026-01-01"
    (by decide)

/-- C10: a non-ok comparison, trades or positions response discards the whole refresh —
the previous state is kept unchanged except for a single connection-error message —
while with those three ok the refresh is applied, degrading a non-ok account response to
`none` and a non-ok symbols response to the empty list, with the error cleared. -/
theorem C10_fetchData_error_handling
    (prev : DashState) (compRes : ApiResult (List StrategyComparison))
    (tradesRes : ApiResult (List Trade)) (posRes : ApiResult (List Position))
    (accountRes : ApiResult Account) (symbolsRes : ApiResult (List String)) :
    ((compRes = .notOk ∨ tradesRes = .notOk ∨ posRes = .notOk) →
        fetchData prev compRes tradesRes posRes accountRes symbolsRes =
          { prev with
            error := some "Failed to connect to backend. Make sure the server is running."
            loading := false }) ∧
      (∀ comp trades pos, compRes = .ok comp → tradesRes = .ok trades → posRes = .ok pos →
        fetchData prev compRes tradesRes posRes accountRes symbolsRes =
          { strategies := comp
            trades := trades
            positions := pos
            account := match accountRes with | .ok a => some a | .notOk => none
            symbols := match symbolsRes with | .ok s => s | .notOk => []
            error := none
            loading := false }) := by
  constructor
  · intro h
    cases compRes <;> cases tradesRes <;> cases posRes <;> first | rfl | simp_all
  · intro comp trades pos h1 h2 h3
    subst h1
    subst h2
    subst h3
    rfl

/-- Witness for C10: a failing positions request keeps the previous state and shows the
connection error; a refresh with the three core requests ok but account and symbols
failing degrades to a null account and an empty symbol list. -/
theorem C10_fetchData_witness :
    fetchData dash0 .notOk (.ok []) (.ok []) .notOk .notOk =
        { dash0 with
          error := some "Failed to connect to backend. Make sure the server is running."
          loading := false } ∧
      fetchData dash0 (.ok []) (.ok []) (.ok []) .notOk .notOk =
        { strategies := [], trades := [], positions := [], account := none, symbols := []
          error := none, loading := false } :=
  ⟨(C10_fetchData_error_handling dash0 .notOk (.ok []) (.ok []) .notOk .notOk).1 (Or.inl rfl),
    (C10_fetchData_error_handling dash0 (.ok []) (.ok []) (.ok []) .notOk .notOk).2
      [] [] [] rfl rfl rfl⟩

/-- Every candle kept by `completedCandles` has fully elapsed. -/
lemma mem_completedCandles {now tfdur : Nat} {cs : List SmoothedCandle} {c : SmoothedCandle}
    (hc : c ∈ completedCandles now tfdur cs) : c.open_time + tfdur ≤ now := by
  simp only [completedCandles, List.mem_filter, decide_eq_true_eq] at hc
  exact hc.2

/-- The two candles `lastTwo` returns are members of its input list. -/
lemma lastTwo_mem {cs : List SmoothedCandle} {a b : SmoothedCandle}
    (h : lastTwo cs = some (a, b)) : a ∈ cs ∧ b ∈ cs := by
  unfold lastTwo at h
  rcases hrev : cs.reverse with _ | ⟨b', rest⟩
  · rw [hrev] at h
    simp at h
  · rcases rest with _ | ⟨a', rest'⟩
    · rw [hrev] at h
      simp at h
    · rw [hrev] at h
      simp only [Option.some.injEq, Prod.mk.injEq] at h
      obtain ⟨ha, hb⟩ := h
      subst ha
      subst hb
      constructor
      · rw [← List.mem_reverse, hrev]
        simp
      · rw [← List.mem_reverse, hrev]
        simp

/-- C2: over the last two completed smoothed candles A (older) and B (newer), the flip
detector emits exactly one signal, with direction = B.trend, when the trends differ, and
none when they are equal; and the full detection path only ever consults candles whose
close time has fully elapsed — never a still-forming candle. -/
theorem C2_flip_detector (symbol : String) (A B : SmoothedCandle) (now tfdur : Nat)
    (cs : List SmoothedCandle) :
    (A.trend ≠ B.trend →
        flip_signal symbol A B =
          some { symbol := symbol, timestamp := B.open_time, direction := B.trend }) ∧
      (A.trend = B.trend → flip_signal symbol A B = none) ∧
      (∀ a b, lastTwo (completedCandles now tfdur cs) = some (a, b) →
        a.open_time + tfdur ≤ now ∧ b.open_time + tfdur ≤ now ∧
          detect_flip symbol now tfdur cs = flip_signal symbol a b) := by
  refine ⟨?_, ?_, ?_⟩
  · intro h
    simp [flip_signal, h]
  · intro h
    simp [flip_signal, h]
  · intro a b h
    obtain ⟨hma, hmb⟩ := lastTwo_mem h
    refine ⟨mem_completedCandles hma, mem_completedCandles hmb, ?_⟩
    unfold detect_flip
    rw [h]

/-- Witness for C2: on a history ending in a still-forming candle, detection works on the
two completed candles and the bearish-to-bullish flip emits one bullish signal. -/
theorem C2_flip_detector_witness :
    candA.trend ≠ candB.trend ∧
      flip_signal "BTCUSDT" candA candB =
        some { symbol := "BTCUSDT", timestamp := 100, direction := Trend.bullish } ∧
      candA.open_time + 100 ≤ 250 ∧ candB.open_time + 100 ≤ 250 ∧
      detect_flip "BTCUSDT" 250 100 [candA, candB, candC] =
        flip_signal "BTCUSDT" candA candB :=
  ⟨by decide,
    (C2_flip_detector "BTCUSDT" candA candB 250 100 [candA, candB, candC]).1 (by decide),
    (C2_flip_detector "BTCUSDT" candA candB 250 100 [candA, candB, candC]).2.2 candA candB
      (by decide)⟩

/-- C8: a failure on one symbol is local. In the `/ha-status` endpoint every symbol whose
per-symbol computation succeeds contributes its row, whatever the other symbols do, and
the response always completes with a count; in the dashboard market fetch every symbol
with an ok, non-empty candle response contributes its row, whatever the other symbols do;
and in a scan cycle every succeeding symbol is counted scanned while every failure only
adds its own error, the cycle completing over all symbols. -/
theorem C8_per_symbol_failures_are_local
    (symbols : List String) (fetch : String → SymbolFetch)
    (ha_states : List (String × String)) (sym cur lu : String)
    (mfetch : String → Option (List ApiCandle)) (candles : List ApiCandle)
    (latest : ApiCandle) (work : String → Except String Unit) (cycleSyms : List String) :
    (sym ∈ symbols.take 20 → fetch sym = .data cur lu →
        get_ha_status_entry sym cur (recorded_state_of ha_states sym) lu ∈
          get_ha_status symbols fetch ha_states) ∧
      get_ha_status_response symbols fetch ha_states =
        { ha_status := get_ha_status symbols fetch ha_states
          count := (get_ha_status symbols fetch ha_states).length } ∧
      (sym ∈ symbols.take 20 → mfetch sym = some candles → candles.getLast? = some latest →
        { symbol := sym, op := latest.op, hi := latest.hi, lo := latest.lo, cl := latest.cl
          volume := latest.volume, timestamp := latest.timestamp : MarketData } ∈
          fetchMarketData symbols mfetch) ∧
      (runCycle work cycleSyms).symbols_scanned = cycleSyms.countP (workOk work) ∧
      (runCycle work cycleSyms).errors.length + cycleSyms.countP (workOk work) =
        cycleSyms.length := by
  refine ⟨?_, rfl, ?_, ?_⟩
  · intro hmem hdata
    unfold get_ha_status
    rw [List.mem_filterMap]
    exact ⟨sym, hmem, by rw [hdata]⟩
  · intro hmem hres hlast
    unfold fetchMarketData
    rw [List.mem_filterMap]
    refine ⟨sym, hmem, ?_⟩
    simp [marketRow, hres, hlast]
  · induction cycleSyms with
    | nil => simp [runCycle]
    | cons s rest ih =>
        rcases hw : work s with _ | e <;>
          simp [runCycle, hw, List.countP_cons, workOk] <;> omega

/-- Witness for C8: with one symbol failing and one empty, the healthy symbol still gets
its HA row and its market row, and a cycle over a failing and a succeeding symbol scans
one symbol and records one error. -/
theorem C8_per_symbol_failures_witness :
    ("BTCUSDT" ∈ (["ETHUSDT", "BTCUSDT", "XRPUSDT"] : List String).take 20 ∧
        get_ha_status_entry "BTCUSDT" "bullish"
            (recorded_state_of [("BTCUSDT", "bearish")] "BTCUSDT") "2026-01-01" ∈
          get_ha_status ["ETHUSDT", "BTCUSDT", "XRPUSDT"]
            (fun s => if s = "BTCUSDT" then .data "bullish" "2026-01-01"
                      else if s = "ETHUSDT" then .failure else .empty)
            [("BTCUSDT", "bearish")]) ∧
      (runCycle (fun s => if s = "BTCUSDT" then .ok () else .error "boom")
          ["ETHUSDT", "BTCUSDT"]).symbols_scanned =
        (["ETHUSDT", "BTCUSDT"] : List String).countP
          (workOk fun s => if s = "BTCUSDT" then .ok () else .error "boom") :=
  ⟨⟨by decide,
      (C8_per_symbol_failures_are_local ["ETHUSDT", "BTCUSDT", "XRPUSDT"]
          (fun s => if s = "BTCUSDT" then .data "bullish" "2026-01-01"
                    else if s = "ETHUSDT" then .failure else .empty)
          [("BTCUSDT", "bearish")] "BTCUSDT" "bullish" "2026-01-01" (fun _ => none) []
          { op := 1, hi := 1, lo := 1, cl := 1, volume := 1, timestamp := "" }
          (fun s => if s = "BTCUSDT" then .ok () else .error "boom") ["ETHUSDT", "BTCUSDT"]).1
        (by decide) (by decide)⟩,
    (C8_per_symbol_failures_are_local ["ETHUSDT", "BTCUSDT", "XRPUSDT"]
        (fun s => if s = "BTCUSDT" then .data "bullish" "2026-01-01"
                  else if s = "ETHUSDT" then .failure else .empty)
        [("BTCUSDT", "bearish")] "BTCUSDT" "bullish" "2026-01-01" (fun _ => none) []
        { op := 1, hi := 1, lo := 1, cl := 1, volume := 1, timestamp := "" }
        (fun s => if s = "BTCUSDT" then .ok () else .error "boom")
        ["ETHUSDT", "BTCUSDT"]).2.2.2.1⟩

/-- After merging candle `c`, the store holds an entry with the open_time of `c`. -/
lemma mergeOne_any (store : List Candle) (c : Candle) :
    ((mergeOne store c).any fun d => d.open_time == c.open_time) = true := by
  unfold mergeOne
  by_cases h : (store.any fun d => d.open_time == c.open_time) = true
  · rw [if_pos h]
    rw [List.any_eq_true] at h ⊢
    obtain ⟨d, hd, hdt⟩ := h
    refine ⟨if d.open_time == c.open_time then c else d, List.mem_map_of_mem _ hd, ?_⟩
    rw [if_pos hdt]
    simp
  · rw [if_neg h]
    rw [List.any_eq_true]
    exact ⟨c, by simp, by simp⟩

/-- After merging candle `c`, any stored entry with the open_time of `c` is `c` itself:
the most-recent fetch wins. -/
lemma mergeOne_matching_eq (store : List Candle) (c : Candle) :
    ∀ d ∈ mergeOne store c, d.open_time = c.open_time → d = c := by
  intro d hd hdt
  unfold mergeOne at hd
  by_cases h : (store.any fun d => d.open_time == c.open_time) = true
  · rw [if_pos h] at hd
    rw [List.mem_map] at hd
    obtain ⟨e, he, heq⟩ := hd
    by_cases ht : (e.open_time == c.open_time) = true
    · rw [if_pos ht] at heq
      exact heq.symm
    · rw [if_neg ht] at heq
      subst heq
      simp only [beq_iff_eq] at ht
      exact absurd hdt ht
  · rw [if_neg h] at hd
    rw [List.mem_append] at hd
    rcases hd with hd | hd
    · rw [List.any_eq_true] at h
      push_neg at h
      have := h d hd
      simp only [ne_eq, beq_iff_eq] at this
      exact absurd hdt this
    · simpa using hd

/-- Merging the same candle a second time does not change the store. -/
lemma mergeOne_idem (store : List Candle) (c : Candle) :
    mergeOne (mergeOne store c) c = mergeOne store c := by
  have hany := mergeOne_any store c
  nth_rewrite 1 [mergeOne]
  rw [if_pos hany]
  have hpt : ∀ d ∈ mergeOne store c,
      (if d.open_time == c.open_time then c else d) = id d := by
    intro d hd
    by_cases ht : (d.open_time == c.open_time) = true
    · rw [if_pos ht, id]
      exact (mergeOne_matching_eq store c d hd (by simpa using ht)).symm
    · rw [if_neg ht, id]
  rw [List.map_congr_left hpt, List.map_id]

/-- In a store with pairwise distinct open_times that contains an entry with the
open_time of `c`, exactly one entry has that open_time. -/
lemma countP_time_eq_one (store : List Candle) (c : Candle)
    (hp : store.Pairwise fun a b => a.open_time ≠ b.open_time)
    (hany : (store.any fun d => d.open_time == c.open_time) = true) :
    (store.countP fun d => d.open_time == c.open_time) = 1 := by
  induction store with
  | nil => simp at hany
  | cons hd tl ih =>
      rw [List.countP_cons]
      rw [List.pairwise_cons] at hp
      by_cases h : (hd.open_time == c.open_time) = true
      · have hz : (tl.countP fun d => d.open_time == c.open_time) = 0 := by
          rw [List.countP_eq_zero]
          intro d hdm
          simp only [beq_iff_eq] at h ⊢
          rw [← h]
          exact fun hcontra => hp.1 d hdm hcontra.symm
        simp [h, hz]
      · rw [List.any_cons] at hany
        simp only [h, Bool.false_or] at hany
        have := ih hp.2 hany
        simp [h, this]

/-- Merging `c` preserves pairwise distinct open_times. -/
lemma mergeOne_pairwise (store : List Candle) (c : Candle)
    (hp : store.Pairwise fun a b => a.open_time ≠ b.open_time) :
    (mergeOne store c).Pairwise fun a b => a.open_time ≠ b.open_time := by
  unfold mergeOne
  by_cases h : (store.any fun d => d.open_time == c.open_time) = true
  · rw [if_pos h]
    have htime : ∀ d : Candle,
        (if d.open_time == c.open_time then c else d).open_time = d.open_time := by
      intro d
      by_cases ht : (d.open_time == c.open_time) = true
      · rw [if_pos ht]
        simp only [beq_iff_eq] at ht
        exact ht.symm
      · rw [if_neg ht]
    refine hp.map _ ?_
    intro a b hab
    rw [htime a, htime b]
    exact hab
  · rw [if_neg h]
    rw [List.pairwise_append]
    refine ⟨hp, List.pairwise_singleton _ _, ?_⟩
    intro a ha b hb
    rw [List.any_eq_true] at h
    push_neg at h
    have := h a ha
    simp only [ne_eq, beq_iff_eq] at this
    simp only [List.mem_singleton] at hb
    subst hb
    exact this

/-- The freshly fetched candle itself is in the merged store. -/
lemma mergeOne_mem_self (store : List Candle) (c : Candle) : c ∈ mergeOne store c := by
  have hany := mergeOne_any store c
  rw [List.any_eq_true] at hany
  obtain ⟨d, hd, hdt⟩ := hany
  have hdc : d = c := mergeOne_matching_eq store c d hd (by simpa using hdt)
  exact hdc ▸ hd

/-- C7: merging a fetched candle whose open_time already exists replaces the stored entry
with the freshly fetched values and never duplicates it: starting from a store with
pairwise distinct open_times, merging the same candle twice equals merging it once, the
fetched candle is stored, every surviving entry at its open_time carries exactly the
freshly fetched values (the most-recent fetch wins), the merged store holds exactly one
entry with that open_time, and open_times stay pairwise distinct. -/
theorem C7_merge_idempotent (store : List Candle) (c : Candle)
    (hp : store.Pairwise fun a b => a.open_time ≠ b.open_time) :
    merge (merge store [c]) [c] = merge store [c] ∧
      c ∈ merge store [c] ∧
      (∀ d ∈ merge store [c], d.open_time = c.open_time → d = c) ∧
      ((merge store [c]).countP fun d => d.open_time == c.open_time) = 1 ∧
      (merge store [c]).Pairwise fun a b => a.open_time ≠ b.open_time := by
  have hm : ∀ s : List Candle, merge s [c] = mergeOne s c := fun s => rfl
  rw [hm, hm]
  exact ⟨mergeOne_idem store c,
    mergeOne_mem_self store c,
    mergeOne_matching_eq store c,
    countP_time_eq_one (mergeOne store c) c (mergeOne_pairwise store c hp) (mergeOne_any store c),
    mergeOne_pairwise store c hp⟩

/-- Witness for C7: remerging the freshly fetched revision of an already stored candle
(same open_time, revised values) is idempotent, stores the revised values, makes every
entry at that open_time the revised candle, and leaves exactly one entry there. -/
theorem C7_merge_idempotent_witness :
    ([storedCandle] : List Candle).Pairwise (fun a b => a.open_time ≠ b.open_time) ∧
      merge (merge [storedCandle] [revisedCandle]) [revisedCandle] =
        merge [storedCandle] [revisedCandle] ∧
      revisedCandle ∈ merge [storedCandle] [revisedCandle] ∧
      (∀ d ∈ merge [storedCandle] [revisedCandle],
        d.open_time = revisedCandle.open_time → d = revisedCandle) ∧
      ((merge [storedCandle] [revisedCandle]).countP
        fun d => d.open_time == revisedCandle.open_time) = 1 :=
  ⟨List.pairwise_singleton _ _,
    (C7_merge_idempotent [storedCandle] revisedCandle (List.pairwise_singleton _ _)).1,
    (C7_merge_idempotent [storedCandle] revisedCandle (List.pairwise_singleton _ _)).2.1,
    (C7_merge_idempotent [storedCandle] revisedCandle (List.pairwise_singleton _ _)).2.2.1,
    (C7_merge_idempotent [storedCandle] revisedCandle (List.pairwise_singleton _ _)).2.2.2.1⟩

end BybitBot
